import Mathlib

/-! go-app: metrics accumulator and instrumentation middleware

Shallow embedding of `internal/metrics/metrics.go` and
`internal/middleware/metrics.go`.

* Go `uint64` fields are natural numbers below `2^64`; every `atomic.AddUint64`
  and every `++` on a `uint64` reduces modulo `2^64`.
* Go `int64` / `time.Duration` values are integers in `[-2^63, 2^63)`;
  `atomic.AddInt64` wraps in two's complement.
* `map[int]uint64` is an association list; reading a missing key yields `0`.
* The calls are taken one at a time (sequential executions), so the atomics and
  the mutex do not appear; `startTime` is not modelled (it is only read by
  `Uptime`).
-/

namespace metrics

/-! ## Machine arithmetic -/

/-- Result of an arithmetic operation stored in a Go `uint64`: reduction modulo `2^64`. -/
def wrapUint64 (n : Nat) : Nat := n % 18446744073709551616

/-- Result of an arithmetic operation stored in a Go `int64`: two's complement
wrap-around into `[-2^63, 2^63)`. -/
def wrapInt64 (i : Int) : Int :=
  (i + 9223372036854775808) % 18446744073709551616 - 9223372036854775808

/-- Go conversion `uint64(x)` of an `int64` value `x`. -/
def uint64OfInt64 (i : Int) : Nat := (i % 18446744073709551616).toNat

/-- Go conversion `int64(x)` (also `time.Duration(x)`) of a `uint64` value `x`. -/
def int64OfUint64 (n : Nat) : Int := wrapInt64 (n : Int)

/-! ## The status-code map -/

/-- Go map read `m[k]`: the stored count, `0` for a missing key. -/
def mapGet : List (Int × Nat) → Int → Nat
  | [], _ => 0
  | (k', v) :: rest, k => if k' = k then v else mapGet rest k

/-- Go map write `m[k] = v`: overwrite the entry of `k`, or add one. -/
def mapSet : List (Int × Nat) → Int → Nat → List (Int × Nat)
  | [], k, v => [(k, v)]
  | (k', v') :: rest, k, v =>
      if k' = k then (k, v) :: rest else (k', v') :: mapSet rest k v

/-- Sum of all counts stored in the map. -/
def mapSum (m : List (Int × Nat)) : Nat := (m.map Prod.snd).sum

/-! ## The accumulator -/

/-- Go struct `Metrics` (fields `startTime` and `mu` left out). -/
structure Metrics where
  requestCount : Nat
  errorCount : Nat
  totalDuration : Nat
  activeRequests : Int
  statusCodes : List (Int × Nat)
deriving DecidableEq, Repr

/-- Every field holds a value of its Go type: `uint64` below `2^64`, `int64` in
`[-2^63, 2^63)`. -/
def Metrics.InRange (m : Metrics) : Prop :=
  m.requestCount < 18446744073709551616 ∧
  m.errorCount < 18446744073709551616 ∧
  m.totalDuration < 18446744073709551616 ∧
  -9223372036854775808 ≤ m.activeRequests ∧
  m.activeRequests < 9223372036854775808 ∧
  ∀ k : Int, mapGet m.statusCodes k < 18446744073709551616

/-- Go `New()`: zero counters and an empty map. -/
def New : Metrics :=
  { requestCount := 0, errorCount := 0, totalDuration := 0, activeRequests := 0,
    statusCodes := [] }

/-- Go `(*Metrics).RecordRequest`. -/
def Metrics.RecordRequest (m : Metrics) : Metrics :=
  let m := { m with requestCount := wrapUint64 (m.requestCount + 1) }
  { m with activeRequests := wrapInt64 (m.activeRequests + 1) }

/-- Go `(*Metrics).RecordResponse`; `duration` is the `time.Duration` in nanoseconds. -/
def Metrics.RecordResponse (m : Metrics) (statusCode : Int) (duration : Int) : Metrics :=
  let m := { m with activeRequests := wrapInt64 (m.activeRequests + (-1)) }
  let m := { m with totalDuration := wrapUint64 (m.totalDuration + uint64OfInt64 duration) }
  let count := wrapUint64 (mapGet m.statusCodes statusCode + 1)
  let m := { m with statusCodes := mapSet m.statusCodes statusCode count }
  if statusCode ≥ 500 then
    { m with errorCount := wrapUint64 (m.errorCount + 1) }
  else m

/-- Go `(*Metrics).RequestCount`. -/
def Metrics.RequestCount (m : Metrics) : Nat := m.requestCount

/-- Go `(*Metrics).ErrorCount`. -/
def Metrics.ErrorCount (m : Metrics) : Nat := m.errorCount

/-- Go `(*Metrics).ActiveRequests`. -/
def Metrics.ActiveRequests (m : Metrics) : Int := m.activeRequests

/-- Go `(*Metrics).AverageDuration`; the result is a `time.Duration` in nanoseconds. -/
def Metrics.AverageDuration (m : Metrics) : Int :=
  let count := m.requestCount
  if count = 0 then 0
  else
    let totalNanos := m.totalDuration
    let avgNanos := totalNanos / count
    if avgNanos > 9223372036854775807 then 9223372036854775807
    else int64OfUint64 avgNanos

/-- Go `(*Metrics).StatusCodes`: a copy of the map. -/
def Metrics.StatusCodes (m : Metrics) : List (Int × Nat) := m.statusCodes

/-! ## Sequences of calls -/

/-- One call on the accumulator. -/
inductive Call where
  | RecordRequest : Call
  | RecordResponse (statusCode : Int) (duration : Int) : Call
deriving DecidableEq, Repr

/-- Effect of one call. -/
def Call.apply (m : Metrics) : Call → Metrics
  | Call.RecordRequest => m.RecordRequest
  | Call.RecordResponse statusCode duration => m.RecordResponse statusCode duration

/-- State reached from `New()` by the calls, in order. -/
def run (calls : List Call) : Metrics := calls.foldl Call.apply New

/-- Number of `RecordRequest` calls in a sequence. -/
def requestCalls : List Call → Nat
  | [] => 0
  | Call.RecordRequest :: rest => requestCalls rest + 1
  | Call.RecordResponse _ _ :: rest => requestCalls rest

/-- Number of `RecordResponse` calls in a sequence. -/
def responseCalls : List Call → Nat
  | [] => 0
  | Call.RecordRequest :: rest => responseCalls rest
  | Call.RecordResponse _ _ :: rest => responseCalls rest + 1

/-- Number of `RecordResponse` calls with a status code of 500 or more. -/
def errorCalls : List Call → Nat
  | [] => 0
  | Call.RecordRequest :: rest => errorCalls rest
  | Call.RecordResponse statusCode _ :: rest =>
      if statusCode ≥ 500 then errorCalls rest + 1 else errorCalls rest

/-- Sum of the nanosecond amounts `uint64(duration.Nanoseconds())` that the
`RecordResponse` calls of a sequence add. -/
def durationCalls : List Call → Nat
  | [] => 0
  | Call.RecordRequest :: rest => durationCalls rest
  | Call.RecordResponse _ duration :: rest => uint64OfInt64 duration + durationCalls rest

/-- Calls made for requests served one after the other: for each pair
`(statusCode, duration)` a `RecordRequest()` followed by
`RecordResponse(statusCode, duration)`. -/
def served : List (Int × Int) → List Call
  | [] => []
  | (statusCode, duration) :: rest =>
      Call.RecordRequest :: Call.RecordResponse statusCode duration :: served rest

end metrics

namespace middleware

/-- Go struct `responseWriter` of the middleware package, as far as the metrics
middleware uses it: the latched status code and the `written` flag. -/
structure responseWriter where
  statusCode : Int
  written : Bool
deriving DecidableEq, Repr

/-- Go `http.StatusOK`. -/
def StatusOK : Int := 200

/-- Go `Metrics(m)(next).ServeHTTP`. The wrapped chain `next` receives the
response-capturing adapter and either returns (with the adapter as it left it)
or panics with a value. A panic unwinds through the handler: the statements
after `next.ServeHTTP` do not run, and the panic value is handed on together
with the accumulator as it stands. `duration` is `time.Since(start)`. -/
def Metrics (m : metrics.Metrics) (next : responseWriter → Except String responseWriter)
    (duration : Int) : metrics.Metrics × Option String :=
  let m := m.RecordRequest
  let wrapped : responseWriter := { statusCode := StatusOK, written := false }
  match next wrapped with
  | Except.error p => (m, some p)
  | Except.ok wrapped => (m.RecordResponse wrapped.statusCode duration, none)

/-- Handler chain that panics, as the handler of `TestRecovery` does:
`panic("test panic")`. -/
def panicking : responseWriter → Except String responseWriter :=
  fun _ => Except.error "test panic"

/-- Modelled from the spec: `(*responseWriter).WriteHeader`, whose source file is
not among the sources (only `TestResponseWriter` is). The first status-setting
call latches its code; later ones leave the latched code as it is. -/
def responseWriter.WriteHeader (rw : responseWriter) (code : Int) : responseWriter :=
  if rw.written then rw else { statusCode := code, written := true }

/-- Modelled from the spec: `(*responseWriter).Write`, whose source file is not
among the sources (only `TestResponseWriterWrite` is). Writing a body sets the
`written` flag and leaves the status code, 200 unless one was set before. -/
def responseWriter.Write (rw : responseWriter) : responseWriter :=
  if rw.written then rw else { rw with written := true }

/-- One call of a handler on the response writer it was given. -/
inductive WriterCall where
  | WriteHeader (code : Int) : WriterCall
  | Write : WriterCall
deriving DecidableEq, Repr

/-- Effect of one call on the adapter. -/
def WriterCall.apply (rw : responseWriter) : WriterCall → responseWriter
  | WriterCall.WriteHeader code => rw.WriteHeader code
  | WriterCall.Write => rw.Write

/-- Handler chain that makes the given calls on its response writer, in order,
and returns normally. -/
def handler (calls : List WriterCall) : responseWriter → Except String responseWriter :=
  fun rw => Except.ok (calls.foldl WriterCall.apply rw)

end middleware

namespace metrics

/-! ## Concrete states and call sequences -/

/-- State after three completed requests lasting `2^63 - 1`, `2^63 - 1` and `1`
nanoseconds and the start of a fourth: the accumulated duration is `2^64 - 1`. -/
def longRequests : Metrics :=
  run [Call.RecordRequest, Call.RecordResponse 200 9223372036854775807,
       Call.RecordRequest, Call.RecordResponse 200 9223372036854775807,
       Call.RecordRequest, Call.RecordResponse 200 1,
       Call.RecordRequest]

/-- State whose error counter holds the largest `uint64`: `2^64 - 1` requests, all
answered with a server error in no measurable time. -/
def errorsAtMax : Metrics :=
  { requestCount := 18446744073709551615, errorCount := 18446744073709551615,
    totalDuration := 0, activeRequests := 0,
    statusCodes := [(500, 18446744073709551614), (503, 1)] }

/-- State of `TestAverageDurationOverflow`: one request recorded and
`totalDuration` stored as `2^63`. -/
def overflowState : Metrics :=
  { New.RecordRequest with totalDuration := 9223372036854775808 }

/-- State whose request counter holds the largest `uint64`: `2^64 - 1` requests, all
answered with status 200 in no measurable time. -/
def requestsAtMax : Metrics :=
  { requestCount := 18446744073709551615, errorCount := 0, totalDuration := 0,
    activeRequests := 0, statusCodes := [(200, 18446744073709551615)] }

end metrics

namespace metrics

/-! ## Machine arithmetic: basic facts -/

theorem wrapUint64_of_lt {n : Nat} (h : n < 18446744073709551616) : wrapUint64 n = n := by
  unfold wrapUint64; omega

theorem wrapUint64_lt (n : Nat) : wrapUint64 n < 18446744073709551616 := by
  unfold wrapUint64; omega

theorem wrapInt64_of_mem {i : Int} (h0 : -9223372036854775808 ≤ i)
    (h1 : i < 9223372036854775808) : wrapInt64 i = i := by
  unfold wrapInt64; omega

theorem wrapInt64_mem (i : Int) :
    -9223372036854775808 ≤ wrapInt64 i ∧ wrapInt64 i < 9223372036854775808 := by
  unfold wrapInt64; omega

theorem uint64OfInt64_of_nonneg {d : Int} (h0 : 0 ≤ d) (h1 : d < 18446744073709551616) :
    (uint64OfInt64 d : Int) = d := by
  unfold uint64OfInt64; omega

theorem uint64OfInt64_lt (d : Int) : uint64OfInt64 d < 18446744073709551616 := by
  unfold uint64OfInt64; omega

/-! ## The status-code map: basic facts -/

theorem mapGet_mapSet_self (m : List (Int × Nat)) (k : Int) (v : Nat) :
    mapGet (mapSet m k v) k = v := by
  induction m with
  | nil => simp [mapSet, mapGet]
  | cons e rest ih =>
    obtain ⟨k', v'⟩ := e
    by_cases h : k' = k
    · simp [mapSet, mapGet, h]
    · simp [mapSet, mapGet, h, ih]

theorem mapGet_mapSet_other (m : List (Int × Nat)) (k k' : Int) (v : Nat) (h : k' ≠ k) :
    mapGet (mapSet m k v) k' = mapGet m k' := by
  induction m with
  | nil => simp [mapSet, mapGet, Ne.symm h]
  | cons e rest ih =>
    obtain ⟨k0, v0⟩ := e
    by_cases h0 : k0 = k
    · subst h0
      simp [mapSet, mapGet, Ne.symm h]
    · by_cases h1 : k0 = k'
      · subst h1
        simp [mapSet, mapGet, h0]
      · simp [mapSet, mapGet, h0, h1, ih]

theorem mapGet_le_mapSum (m : List (Int × Nat)) (k : Int) : mapGet m k ≤ mapSum m := by
  induction m with
  | nil => simp [mapGet, mapSum]
  | cons e rest ih =>
    obtain ⟨k', v'⟩ := e
    unfold mapSum at *
    by_cases h : k' = k
    · simp [mapGet, h]
    · simp only [mapGet, h, if_false, List.map_cons, List.sum_cons]
      omega

theorem mapSum_mapSet (m : List (Int × Nat)) (k : Int) (v : Nat) :
    mapSum (mapSet m k v) + mapGet m k = mapSum m + v := by
  induction m with
  | nil => simp [mapSet, mapGet, mapSum]
  | cons e rest ih =>
    obtain ⟨k', v'⟩ := e
    unfold mapSum at *
    by_cases h : k' = k
    · simp only [mapSet, mapGet, h, if_true, List.map_cons, List.sum_cons]
      omega
    · simp only [mapSet, mapGet, h, if_false, List.map_cons, List.sum_cons]
      omega

/-- Keys of the map after a write: unchanged when the key was present, one more
at the end otherwise. -/
theorem keys_mapSet (m : List (Int × Nat)) (k : Int) (v : Nat) :
    (mapSet m k v).map Prod.fst =
      if k ∈ m.map Prod.fst then m.map Prod.fst else m.map Prod.fst ++ [k] := by
  induction m with
  | nil => simp [mapSet]
  | cons e rest ih =>
    obtain ⟨k', v'⟩ := e
    by_cases h : k' = k
    · subst h
      simp [mapSet]
    · have h' : ¬ k = k' := fun e => h e.symm
      simp only [mapSet, h, if_false, List.map_cons, ih, List.mem_cons, h', false_or]
      split <;> simp

/-- A map write keeps the keys pairwise distinct, as in a Go map. -/
theorem nodup_keys_mapSet (m : List (Int × Nat)) (k : Int) (v : Nat)
    (h : (m.map Prod.fst).Nodup) : ((mapSet m k v).map Prod.fst).Nodup := by
  rw [keys_mapSet]
  split
  · exact h
  · rename_i hk
    exact List.Nodup.append h (List.nodup_singleton k) (by
      intro a ha hb
      rw [List.mem_singleton] at hb
      exact hk (hb ▸ ha))

/-! ## Field-by-field effect of the two record operations -/

theorem RecordResponse_requestCount (m : Metrics) (c d : Int) :
    (m.RecordResponse c d).requestCount = m.requestCount := by
  unfold Metrics.RecordResponse; split <;> rfl

theorem RecordResponse_activeRequests (m : Metrics) (c d : Int) :
    (m.RecordResponse c d).activeRequests = wrapInt64 (m.activeRequests + (-1)) := by
  unfold Metrics.RecordResponse; split <;> rfl

theorem RecordResponse_totalDuration (m : Metrics) (c d : Int) :
    (m.RecordResponse c d).totalDuration = wrapUint64 (m.totalDuration + uint64OfInt64 d) := by
  unfold Metrics.RecordResponse; split <;> rfl

theorem RecordResponse_statusCodes (m : Metrics) (c d : Int) :
    (m.RecordResponse c d).statusCodes =
      mapSet m.statusCodes c (wrapUint64 (mapGet m.statusCodes c + 1)) := by
  unfold Metrics.RecordResponse; split <;> rfl

theorem RecordResponse_errorCount_ge (m : Metrics) (c d : Int) (h : 500 ≤ c) :
    (m.RecordResponse c d).errorCount = wrapUint64 (m.errorCount + 1) := by
  unfold Metrics.RecordResponse; simp [h]

theorem RecordResponse_errorCount_lt (m : Metrics) (c d : Int) (h : c < 500) :
    (m.RecordResponse c d).errorCount = m.errorCount := by
  unfold Metrics.RecordResponse; simp [not_le.mpr h]

/-! ## RecordResponse -/

/-- C1 (as amended). For every accumulator state whose fields lie in their Go
types, every status code and every non-negative duration, `RecordResponse`
leaves `activeRequests` exactly 1 less unless it was `-2^63` (then it wraps to
`2^63 - 1`), leaves `totalDuration` exactly `d` more unless that reaches `2^64`
(then `2^64` is taken off), leaves the count of the status code exactly 1 more
unless it was `2^64 - 1` (then it wraps to 0), keeps the count of every other
key and keeps `requestCount`. -/
theorem RecordResponse_effect (m : Metrics) (c d : Int) (hm : m.InRange)
    (h0 : 0 ≤ d) (h1 : d < 9223372036854775808) :
    (m.RecordResponse c d).activeRequests =
        (if m.activeRequests = -9223372036854775808 then 9223372036854775807
         else m.activeRequests - 1) ∧
    ((m.RecordResponse c d).totalDuration : Int) =
        (if (m.totalDuration : Int) + d < 18446744073709551616 then m.totalDuration + d
         else m.totalDuration + d - 18446744073709551616) ∧
    mapGet (m.RecordResponse c d).statusCodes c =
        (if mapGet m.statusCodes c = 18446744073709551615 then 0
         else mapGet m.statusCodes c + 1) ∧
    (∀ k : Int, k ≠ c →
        mapGet (m.RecordResponse c d).statusCodes k = mapGet m.statusCodes k) ∧
    (m.RecordResponse c d).requestCount = m.requestCount := by
  obtain ⟨_, _, ht, ha0, ha1, hs⟩ := hm
  refine ⟨?_, ?_, ?_, ?_, RecordResponse_requestCount m c d⟩
  · rw [RecordResponse_activeRequests]
    unfold wrapInt64
    split <;> omega
  · rw [RecordResponse_totalDuration]
    have hu := uint64OfInt64_of_nonneg h0 (by omega : d < 18446744073709551616)
    unfold wrapUint64
    split <;> omega
  · rw [RecordResponse_statusCodes, mapGet_mapSet_self]
    have := hs c
    unfold wrapUint64
    split <;> omega
  · intro k hk
    rw [RecordResponse_statusCodes, mapGet_mapSet_other _ _ _ _ hk]

/-- Witness for C1: the amended statement applied to a fresh accumulator with
one request in flight, status 200 and 100 ms. -/
theorem RecordResponse_effect_witness :
    (New.RecordRequest.RecordResponse 200 100000000).activeRequests =
        (if New.RecordRequest.activeRequests = -9223372036854775808 then 9223372036854775807
         else New.RecordRequest.activeRequests - 1) ∧
    ((New.RecordRequest.RecordResponse 200 100000000).totalDuration : Int) =
        (if (New.RecordRequest.totalDuration : Int) + 100000000 < 18446744073709551616
         then New.RecordRequest.totalDuration + 100000000
         else New.RecordRequest.totalDuration + 100000000 - 18446744073709551616) ∧
    mapGet (New.RecordRequest.RecordResponse 200 100000000).statusCodes 200 =
        (if mapGet New.RecordRequest.statusCodes 200 = 18446744073709551615 then 0
         else mapGet New.RecordRequest.statusCodes 200 + 1) ∧
    (∀ k : Int, k ≠ 200 →
        mapGet (New.RecordRequest.RecordResponse 200 100000000).statusCodes k =
          mapGet New.RecordRequest.statusCodes k) ∧
    (New.RecordRequest.RecordResponse 200 100000000).requestCount =
      New.RecordRequest.requestCount :=
  RecordResponse_effect New.RecordRequest 200 100000000
    ⟨by decide, by decide, by decide, by decide, by decide,
      fun k => by simp [New, Metrics.RecordRequest, mapGet]⟩
    (by decide) (by decide)

/-- Counterexample to C1 as stated: after three completed requests of
`2^63 - 1`, `2^63 - 1` and `1` nanoseconds and the start of a fourth, the state
is in range with `totalDuration = 2^64 - 1`; `RecordResponse(200, 1ns)` then
leaves `totalDuration = 0`, which is not 1 nanosecond more. -/
theorem totalDuration_wraps_at_max :
    longRequests.InRange ∧ longRequests.totalDuration = 18446744073709551615 ∧
    (longRequests.RecordResponse 200 1).totalDuration = 0 ∧
    ¬ ((longRequests.RecordResponse 200 1).totalDuration =
        longRequests.totalDuration + 1) := by
  refine ⟨⟨by decide, by decide, by decide, by decide, by decide, ?_⟩,
    by decide, by decide, by decide⟩
  intro k
  have h : longRequests.statusCodes = [(200, 3)] := by decide
  rw [h]
  by_cases hk : (200 : Int) = k <;> simp [mapGet, hk]

/-- C2 (as amended). For every accumulator state whose fields lie in their Go
types, every status code and every duration, `RecordResponse` leaves
`errorCount` unchanged when the code is below 500 and, when the code is 500 or
more, exactly 1 more unless it was `2^64 - 1` (then it wraps to 0). -/
theorem errorCount_after_RecordResponse (m : Metrics) (c d : Int) (hm : m.InRange) :
    (500 ≤ c → (m.RecordResponse c d).ErrorCount =
        (if m.ErrorCount = 18446744073709551615 then 0 else m.ErrorCount + 1)) ∧
    (c < 500 → (m.RecordResponse c d).ErrorCount = m.ErrorCount) := by
  obtain ⟨_, he, _⟩ := hm
  refine ⟨fun h => ?_, fun h => RecordResponse_errorCount_lt m c d h⟩
  unfold Metrics.ErrorCount
  rw [RecordResponse_errorCount_ge m c d h]
  unfold wrapUint64
  split <;> omega

/-- Witness for C2: the amended statement on a fresh accumulator with one
request in flight, status 503. -/
theorem errorCount_after_RecordResponse_witness :
    (500 ≤ (503 : Int) → (New.RecordRequest.RecordResponse 503 150000000).ErrorCount =
        (if New.RecordRequest.ErrorCount = 18446744073709551615 then 0
         else New.RecordRequest.ErrorCount + 1)) ∧
    ((503 : Int) < 500 → (New.RecordRequest.RecordResponse 503 150000000).ErrorCount =
        New.RecordRequest.ErrorCount) :=
  errorCount_after_RecordResponse New.RecordRequest 503 150000000
    ⟨by decide, by decide, by decide, by decide, by decide,
      fun k => by simp [New, Metrics.RecordRequest, mapGet]⟩

/-- Counterexample to C2 as stated: in the in-range state whose `errorCount` is
`2^64 - 1`, `RecordResponse(500, 0)` leaves `errorCount = 0`, not 1 more. -/
theorem errorCount_wraps_at_max :
    errorsAtMax.InRange ∧ (500 : Int) ≥ 500 ∧
    (errorsAtMax.RecordResponse 500 0).ErrorCount = 0 ∧
    ¬ ((errorsAtMax.RecordResponse 500 0).ErrorCount = errorsAtMax.ErrorCount + 1) := by
  refine ⟨⟨by decide, by decide, by decide, by decide, by decide, ?_⟩,
    by decide, by decide, by decide⟩
  intro k
  by_cases h1 : (500 : Int) = k
  · simp [errorsAtMax, mapGet, h1]
  · by_cases h2 : (503 : Int) = k <;> simp [errorsAtMax, mapGet, h1, h2]

/-! ## RecordRequest -/

/-- C3 (as amended). For every accumulator state whose fields lie in their Go
types, `RecordRequest` leaves `requestCount` exactly 1 more unless it was
`2^64 - 1` (then it wraps to 0), leaves `activeRequests` exactly 1 more unless
it was `2^63 - 1` (then it wraps to `-2^63`), and keeps `errorCount`,
`totalDuration` and `statusCodes`; on a fresh accumulator it gives
`RequestCount() = 1` and `ActiveRequests() = 1`. -/
theorem RecordRequest_effect (m : Metrics) (hm : m.InRange) :
    m.RecordRequest.requestCount =
        (if m.requestCount = 18446744073709551615 then 0 else m.requestCount + 1) ∧
    m.RecordRequest.activeRequests =
        (if m.activeRequests = 9223372036854775807 then -9223372036854775808
         else m.activeRequests + 1) ∧
    m.RecordRequest.errorCount = m.errorCount ∧
    m.RecordRequest.totalDuration = m.totalDuration ∧
    m.RecordRequest.statusCodes = m.statusCodes ∧
    New.RecordRequest.RequestCount = 1 ∧ New.RecordRequest.ActiveRequests = 1 := by
  obtain ⟨hr, _, _, ha0, ha1, _⟩ := hm
  refine ⟨?_, ?_, rfl, rfl, rfl, by decide, by decide⟩
  · show wrapUint64 (m.requestCount + 1) = _
    unfold wrapUint64
    split <;> omega
  · show wrapInt64 (m.activeRequests + 1) = _
    unfold wrapInt64
    split <;> omega

/-- Witness for C3: the amended statement on the state with three completed
requests and one in flight. -/
theorem RecordRequest_effect_witness :
    longRequests.RecordRequest.requestCount =
        (if longRequests.requestCount = 18446744073709551615 then 0
         else longRequests.requestCount + 1) ∧
    longRequests.RecordRequest.activeRequests =
        (if longRequests.activeRequests = 9223372036854775807 then -9223372036854775808
         else longRequests.activeRequests + 1) ∧
    longRequests.RecordRequest.errorCount = longRequests.errorCount ∧
    longRequests.RecordRequest.totalDuration = longRequests.totalDuration ∧
    longRequests.RecordRequest.statusCodes = longRequests.statusCodes ∧
    New.RecordRequest.RequestCount = 1 ∧ New.RecordRequest.ActiveRequests = 1 :=
  RecordRequest_effect longRequests
    ⟨by decide, by decide, by decide, by decide, by decide, fun k => by
      have h : longRequests.statusCodes = [(200, 3)] := by decide
      rw [h]
      by_cases hk : (200 : Int) = k <;> simp [mapGet, hk]⟩

/-- Counterexample to C3 as stated: in the in-range state whose `requestCount`
is `2^64 - 1`, `RecordRequest()` leaves `requestCount = 0`, not 1 more. -/
theorem requestCount_wraps_at_max :
    requestsAtMax.InRange ∧ requestsAtMax.RecordRequest.RequestCount = 0 ∧
    ¬ (requestsAtMax.RecordRequest.RequestCount = requestsAtMax.RequestCount + 1) := by
  refine ⟨⟨by decide, by decide, by decide, by decide, by decide, ?_⟩, by decide, by decide⟩
  intro k
  by_cases h1 : (200 : Int) = k <;> simp [requestsAtMax, mapGet, h1]

/-! ## Sequences of calls: what each field holds -/

theorem foldl_requestCount (cs : List Call) (m : Metrics) :
    (cs.foldl Call.apply m).requestCount % 18446744073709551616 =
      (m.requestCount + requestCalls cs) % 18446744073709551616 := by
  induction cs generalizing m with
  | nil => simp [requestCalls]
  | cons c rest ih =>
    cases c with
    | RecordRequest =>
      have h : (m.RecordRequest).requestCount = wrapUint64 (m.requestCount + 1) := rfl
      simp only [List.foldl_cons, Call.apply, requestCalls, ih, h]
      unfold wrapUint64; omega
    | RecordResponse sc d =>
      simp only [List.foldl_cons, Call.apply, requestCalls, ih, RecordResponse_requestCount]

theorem foldl_errorCount (cs : List Call) (m : Metrics) :
    (cs.foldl Call.apply m).errorCount % 18446744073709551616 =
      (m.errorCount + errorCalls cs) % 18446744073709551616 := by
  induction cs generalizing m with
  | nil => simp [errorCalls]
  | cons c rest ih =>
    cases c with
    | RecordRequest =>
      have h : (m.RecordRequest).errorCount = m.errorCount := rfl
      simp only [List.foldl_cons, Call.apply, errorCalls, ih, h]
    | RecordResponse sc d =>
      by_cases hsc : 500 ≤ sc
      · simp only [List.foldl_cons, Call.apply, errorCalls, ih,
          RecordResponse_errorCount_ge m sc d hsc, ge_iff_le, hsc, if_true]
        unfold wrapUint64; omega
      · simp only [List.foldl_cons, Call.apply, errorCalls, ih,
          RecordResponse_errorCount_lt m sc d (not_le.mp hsc), ge_iff_le, hsc, if_false]

theorem foldl_totalDuration (cs : List Call) (m : Metrics) :
    (cs.foldl Call.apply m).totalDuration % 18446744073709551616 =
      (m.totalDuration + durationCalls cs) % 18446744073709551616 := by
  induction cs generalizing m with
  | nil => simp [durationCalls]
  | cons c rest ih =>
    cases c with
    | RecordRequest =>
      have h : (m.RecordRequest).totalDuration = m.totalDuration := rfl
      simp only [List.foldl_cons, Call.apply, durationCalls, ih, h]
    | RecordResponse sc d =>
      simp only [List.foldl_cons, Call.apply, durationCalls, ih, RecordResponse_totalDuration]
      unfold wrapUint64; omega

theorem foldl_activeRequests (cs : List Call) (m : Metrics) :
    wrapInt64 (cs.foldl Call.apply m).activeRequests =
      wrapInt64 (m.activeRequests + requestCalls cs - responseCalls cs) := by
  induction cs generalizing m with
  | nil => simp [requestCalls, responseCalls]
  | cons c rest ih =>
    cases c with
    | RecordRequest =>
      have h : (m.RecordRequest).activeRequests = wrapInt64 (m.activeRequests + 1) := rfl
      simp only [List.foldl_cons, Call.apply, requestCalls, responseCalls, ih, h]
      unfold wrapInt64; push_cast; omega
    | RecordResponse sc d =>
      simp only [List.foldl_cons, Call.apply, requestCalls, responseCalls, ih,
        RecordResponse_activeRequests]
      unfold wrapInt64; push_cast; omega

/-! ## Every reachable state is in range -/

theorem New_inRange : New.InRange :=
  ⟨by decide, by decide, by decide, by decide, by decide, fun k => by simp [New, mapGet]⟩

theorem RecordRequest_inRange (m : Metrics) (hm : m.InRange) : m.RecordRequest.InRange := by
  obtain ⟨_, he, ht, _, _, hs⟩ := hm
  exact ⟨wrapUint64_lt _, he, ht, (wrapInt64_mem _).1, (wrapInt64_mem _).2, hs⟩

theorem RecordResponse_inRange (m : Metrics) (c d : Int) (hm : m.InRange) :
    (m.RecordResponse c d).InRange := by
  obtain ⟨hr, he, ht, _, _, hs⟩ := hm
  refine ⟨?_, ?_, ?_, ?_, ?_, ?_⟩
  · rw [RecordResponse_requestCount]; exact hr
  · by_cases hc : 500 ≤ c
    · rw [RecordResponse_errorCount_ge m c d hc]; exact wrapUint64_lt _
    · rw [RecordResponse_errorCount_lt m c d (not_le.mp hc)]; exact he
  · rw [RecordResponse_totalDuration]; exact wrapUint64_lt _
  · rw [RecordResponse_activeRequests]; exact (wrapInt64_mem _).1
  · rw [RecordResponse_activeRequests]; exact (wrapInt64_mem _).2
  · intro k
    rw [RecordResponse_statusCodes]
    by_cases hk : k = c
    · subst hk
      rw [mapGet_mapSet_self]; exact wrapUint64_lt _
    · rw [mapGet_mapSet_other _ _ _ _ hk]; exact hs k

theorem foldl_inRange (cs : List Call) (m : Metrics) (hm : m.InRange) :
    (cs.foldl Call.apply m).InRange := by
  induction cs generalizing m with
  | nil => exact hm
  | cons c rest ih =>
    cases c with
    | RecordRequest => exact ih _ (RecordRequest_inRange m hm)
    | RecordResponse sc d => exact ih _ (RecordResponse_inRange m sc d hm)

theorem run_inRange (cs : List Call) : (run cs).InRange :=
  foldl_inRange cs New New_inRange

theorem run_requestCount (cs : List Call) :
    (run cs).requestCount = requestCalls cs % 18446744073709551616 := by
  have h := foldl_requestCount cs New
  have hr : (cs.foldl Call.apply New).requestCount < 18446744073709551616 :=
    (run_inRange cs).1
  have e : New.requestCount = 0 := rfl
  rw [e] at h
  show (cs.foldl Call.apply New).requestCount = _
  omega

theorem run_errorCount (cs : List Call) :
    (run cs).errorCount = errorCalls cs % 18446744073709551616 := by
  have h := foldl_errorCount cs New
  have hr : (cs.foldl Call.apply New).errorCount < 18446744073709551616 :=
    (run_inRange cs).2.1
  have e : New.errorCount = 0 := rfl
  rw [e] at h
  show (cs.foldl Call.apply New).errorCount = _
  omega

theorem run_totalDuration (cs : List Call) :
    (run cs).totalDuration = durationCalls cs % 18446744073709551616 := by
  have h := foldl_totalDuration cs New
  have hr : (cs.foldl Call.apply New).totalDuration < 18446744073709551616 :=
    (run_inRange cs).2.2.1
  have e : New.totalDuration = 0 := rfl
  rw [e] at h
  show (cs.foldl Call.apply New).totalDuration = _
  omega

theorem run_activeRequests (cs : List Call) :
    (run cs).activeRequests = wrapInt64 ((requestCalls cs : Int) - responseCalls cs) := by
  have h := foldl_activeRequests cs New
  have hr : (cs.foldl Call.apply New).InRange := run_inRange cs
  rw [wrapInt64_of_mem hr.2.2.2.1 hr.2.2.2.2.1] at h
  have e : New.activeRequests = 0 := rfl
  rw [e, zero_add] at h
  exact h

/-! ## Requests served one after the other -/

theorem requestCalls_served (ds : List (Int × Int)) : requestCalls (served ds) = ds.length := by
  induction ds with
  | nil => rfl
  | cons p rest ih =>
    obtain ⟨c, d⟩ := p
    simp only [served, requestCalls, ih, List.length_cons]

theorem responseCalls_served (ds : List (Int × Int)) :
    responseCalls (served ds) = ds.length := by
  induction ds with
  | nil => rfl
  | cons p rest ih =>
    obtain ⟨c, d⟩ := p
    simp only [served, responseCalls, ih, List.length_cons]

theorem errorCalls_le_responseCalls (cs : List Call) : errorCalls cs ≤ responseCalls cs := by
  induction cs with
  | nil => exact Nat.le_refl _
  | cons c rest ih =>
    cases c with
    | RecordRequest => simpa only [errorCalls, responseCalls] using ih
    | RecordResponse sc d =>
      simp only [errorCalls, responseCalls]
      split <;> omega

/-- Status-code map while requests answered with 200 are served one after the
other, once the map holds the single key 200: it keeps that single entry,
counting modulo `2^64`. -/
theorem foldl_served_ok_statusCodes (n : Nat) (m : Metrics) (v : Nat)
    (hv : v < 18446744073709551616) (hm : m.statusCodes = [(200, v)]) :
    ((served (List.replicate n ((200 : Int), (0 : Int)))).foldl Call.apply m).statusCodes =
      [(200, (v + n) % 18446744073709551616)] := by
  induction n generalizing m v with
  | zero =>
    rw [List.replicate_zero]
    simp only [served, List.foldl_nil, Nat.add_zero]
    rw [hm, Nat.mod_eq_of_lt hv]
  | succ n ih =>
    rw [List.replicate_succ]
    simp only [served, List.foldl_cons, Call.apply]
    have e : m.RecordRequest.statusCodes = m.statusCodes := rfl
    have hstep : (m.RecordRequest.RecordResponse 200 0).statusCodes =
        [(200, wrapUint64 (v + 1))] := by
      rw [RecordResponse_statusCodes, e, hm]
      simp [mapSet, mapGet]
    rw [ih _ _ (wrapUint64_lt _) hstep]
    congr 2
    unfold wrapUint64
    omega

/-- Status-code map after `n + 1` requests answered with 200, served one after
the other on a fresh accumulator. -/
theorem run_served_ok_statusCodes (n : Nat) :
    (run (served ((200, 0) :: List.replicate n ((200 : Int), (0 : Int))))).statusCodes =
      [(200, (1 + n) % 18446744073709551616)] := by
  unfold run
  simp only [served, List.foldl_cons, Call.apply]
  exact foldl_served_ok_statusCodes n _ 1 (by decide) (by decide)

theorem run_served_activeRequests (ds : List (Int × Int)) :
    (run (served ds)).ActiveRequests = 0 := by
  unfold Metrics.ActiveRequests
  rw [run_activeRequests, requestCalls_served, responseCalls_served, sub_self]
  rfl

theorem run_served_requestCount (ds : List (Int × Int)) :
    (run (served ds)).RequestCount = ds.length % 18446744073709551616 := by
  unfold Metrics.RequestCount
  rw [run_requestCount, requestCalls_served]

theorem run_served_replicate_requestCount (n : Nat) (p : Int × Int)
    (hn : n % 18446744073709551616 = 0) :
    (run (served (List.replicate n p))).RequestCount = 0 := by
  rw [run_served_requestCount, List.length_replicate, hn]

theorem responseCalls_served_replicate (n : Nat) (p : Int × Int) :
    responseCalls (served (List.replicate n p)) = n := by
  rw [responseCalls_served, List.length_replicate]

theorem run_served_replicate_active_ne (n : Nat) (p : Int × Int)
    (hn : n % 18446744073709551616 = 0) (hpos : 0 < n) :
    ¬ ((run (served (List.replicate n p))).ActiveRequests =
        ((run (served (List.replicate n p))).RequestCount : Int) -
          responseCalls (served (List.replicate n p))) := by
  rw [run_served_activeRequests, run_served_replicate_requestCount n p hn,
    responseCalls_served_replicate]
  omega

theorem responseCalls_served_cons_replicate (n : Nat) (p : Int × Int) :
    responseCalls (served (p :: List.replicate n p)) = n + 1 := by
  rw [responseCalls_served, List.length_cons, List.length_replicate]

theorem run_served_ok_mapSum (n : Nat) (hn : (1 + n) % 18446744073709551616 = 0) :
    mapSum (run (served ((200, 0) :: List.replicate n ((200 : Int), (0 : Int))))).StatusCodes
      = 0 := by
  unfold Metrics.StatusCodes
  rw [run_served_ok_statusCodes, hn]
  rfl

theorem run_served_ok_mapSum_ne (n : Nat) (hn : (1 + n) % 18446744073709551616 = 0) :
    ¬ (mapSum (run (served ((200, 0) ::
          List.replicate n ((200 : Int), (0 : Int))))).StatusCodes =
        responseCalls (served ((200, 0) :: List.replicate n ((200 : Int), (0 : Int))))) := by
  rw [run_served_ok_mapSum n hn, responseCalls_served_cons_replicate]
  omega

/-- Sum of the status-code counts along a sequence of calls, as long as it stays
below `2^64`. -/
theorem foldl_mapSum (cs : List Call) (m : Metrics)
    (h : mapSum m.statusCodes + responseCalls cs < 18446744073709551616) :
    mapSum (cs.foldl Call.apply m).statusCodes = mapSum m.statusCodes + responseCalls cs := by
  induction cs generalizing m with
  | nil => simp [responseCalls]
  | cons c rest ih =>
    cases c with
    | RecordRequest =>
      have e : m.RecordRequest.statusCodes = m.statusCodes := rfl
      simp only [responseCalls] at h
      simp only [List.foldl_cons, Call.apply, responseCalls]
      rw [ih _ (by rw [e]; exact h), e]
    | RecordResponse sc d =>
      simp only [responseCalls] at h
      have hle := mapGet_le_mapSum m.statusCodes sc
      have hset := mapSum_mapSet m.statusCodes sc (wrapUint64 (mapGet m.statusCodes sc + 1))
      rw [wrapUint64_of_lt (by omega)] at hset
      have e : mapSum (m.RecordResponse sc d).statusCodes = mapSum m.statusCodes + 1 := by
        rw [RecordResponse_statusCodes, wrapUint64_of_lt (by omega)]
        omega
      simp only [List.foldl_cons, Call.apply, responseCalls]
      rw [ih _ (by rw [e]; omega), e]
      omega

theorem foldl_nodup_keys (cs : List Call) (m : Metrics)
    (h : (m.statusCodes.map Prod.fst).Nodup) :
    (((cs.foldl Call.apply m).statusCodes).map Prod.fst).Nodup := by
  induction cs generalizing m with
  | nil => exact h
  | cons c rest ih =>
    cases c with
    | RecordRequest => exact ih _ h
    | RecordResponse sc d =>
      refine ih _ ?_
      show (((m.RecordResponse sc d).statusCodes).map Prod.fst).Nodup
      rw [RecordResponse_statusCodes]
      exact nodup_keys_mapSet _ _ _ h

/-- In every reachable state the status-code map holds each key once, so that
`mapSum` adds each count of the Go map once. -/
theorem run_nodup_keys (cs : List Call) : (((run cs).statusCodes).map Prod.fst).Nodup :=
  foldl_nodup_keys cs New List.nodup_nil

/-! ## Invariants over sequences of calls -/

/-- C4 (as amended). In every state reached from `New()` by a finite sequence of
`RecordRequest` and `RecordResponse` calls that holds fewer than `2^64`
`RecordRequest` calls and in which the number of requests minus the number of
responses is an `int64` value, `activeRequests` equals `requestCount` minus the
number of `RecordResponse` calls. -/
theorem activeRequests_eq_requestCount_sub (cs : List Call)
    (hr : requestCalls cs < 18446744073709551616)
    (h0 : -9223372036854775808 ≤ (requestCalls cs : Int) - responseCalls cs)
    (h1 : (requestCalls cs : Int) - responseCalls cs < 9223372036854775808) :
    (run cs).ActiveRequests = ((run cs).RequestCount : Int) - responseCalls cs := by
  unfold Metrics.ActiveRequests Metrics.RequestCount
  rw [run_activeRequests, run_requestCount, wrapInt64_of_mem h0 h1, Nat.mod_eq_of_lt hr]

/-- Witness for C4: two requests started, one of them finished. -/
theorem activeRequests_eq_requestCount_sub_witness :
    (run [Call.RecordRequest, Call.RecordRequest, Call.RecordResponse 404 50000000]).ActiveRequests =
      ((run [Call.RecordRequest, Call.RecordRequest,
          Call.RecordResponse 404 50000000]).RequestCount : Int) -
        responseCalls [Call.RecordRequest, Call.RecordRequest, Call.RecordResponse 404 50000000] :=
  activeRequests_eq_requestCount_sub
    [Call.RecordRequest, Call.RecordRequest, Call.RecordResponse 404 50000000]
    (by decide) (by decide) (by decide)

/-- Counterexample to C4 as stated: after `2^64` requests served one after the
other (each a `RecordRequest()` followed by `RecordResponse(200, 0)`),
`activeRequests` is 0 and `requestCount` has wrapped to 0, so `requestCount`
minus the `2^64` responses is `-2^64`, not `activeRequests`. -/
theorem activeRequests_ne_after_wrap :
    (run (served (List.replicate 18446744073709551616 (200, 0)))).ActiveRequests = 0 ∧
    (run (served (List.replicate 18446744073709551616 (200, 0)))).RequestCount = 0 ∧
    responseCalls (served (List.replicate 18446744073709551616 (200, 0))) =
      18446744073709551616 ∧
    ¬ ((run (served (List.replicate 18446744073709551616 (200, 0)))).ActiveRequests =
        ((run (served (List.replicate 18446744073709551616 (200, 0)))).RequestCount : Int) -
          responseCalls (served (List.replicate 18446744073709551616 (200, 0)))) :=
  ⟨run_served_activeRequests _, run_served_replicate_requestCount _ _ (by decide),
    responseCalls_served_replicate _ _,
    run_served_replicate_active_ne _ _ (by decide) (by decide)⟩

/-- C5 (as amended). In every state reached from `New()` by a finite sequence of
`RecordRequest` and `RecordResponse` calls that holds fewer than `2^64`
`RecordResponse` calls, the sum of all counts in `statusCodes` equals the
number of `RecordResponse` calls. -/
theorem statusCodes_sum_eq_responses (cs : List Call)
    (h : responseCalls cs < 18446744073709551616) :
    mapSum (run cs).StatusCodes = responseCalls cs := by
  have e : mapSum New.statusCodes = 0 := rfl
  have := foldl_mapSum cs New (by rw [e]; omega)
  rw [e, Nat.zero_add] at this
  exact this

/-- Witness for C5: three requests started, two of them finished (200 and 404). -/
theorem statusCodes_sum_eq_responses_witness :
    mapSum (run [Call.RecordRequest, Call.RecordRequest, Call.RecordResponse 200 10000000,
        Call.RecordRequest, Call.RecordResponse 404 10000000]).StatusCodes =
      responseCalls [Call.RecordRequest, Call.RecordRequest, Call.RecordResponse 200 10000000,
        Call.RecordRequest, Call.RecordResponse 404 10000000] :=
  statusCodes_sum_eq_responses
    [Call.RecordRequest, Call.RecordRequest, Call.RecordResponse 200 10000000,
      Call.RecordRequest, Call.RecordResponse 404 10000000] (by decide)

/-- Counterexample to C5 as stated: after `2^64` requests served one after the
other, each answered with 200, the only count `statusCodes[200]` has wrapped to
0, so the counts sum to 0 while `2^64` `RecordResponse` calls were made. -/
theorem statusCodes_sum_ne_after_wrap :
    mapSum (run (served ((200, 0) ::
        List.replicate 18446744073709551615 (200, 0)))).StatusCodes = 0 ∧
    responseCalls (served ((200, 0) :: List.replicate 18446744073709551615 (200, 0))) =
      18446744073709551615 + 1 ∧
    ¬ (mapSum (run (served ((200, 0) ::
          List.replicate 18446744073709551615 (200, 0)))).StatusCodes =
        responseCalls (served ((200, 0) :: List.replicate 18446744073709551615 (200, 0)))) :=
  ⟨run_served_ok_mapSum _ (by decide), responseCalls_served_cons_replicate _ _,
    run_served_ok_mapSum_ne _ (by decide)⟩

/-- C6 (as amended). In every state reached from `New()` by a finite sequence of
`RecordRequest` and `RecordResponse` calls that holds fewer than `2^64`
`RecordRequest` calls and no more `RecordResponse` calls with a status of 500
or above than `RecordRequest` calls, `ErrorCount() <= RequestCount()`. -/
theorem errorCount_le_requestCount (cs : List Call)
    (hr : requestCalls cs < 18446744073709551616)
    (he : errorCalls cs ≤ requestCalls cs) :
    (run cs).ErrorCount ≤ (run cs).RequestCount := by
  unfold Metrics.ErrorCount Metrics.RequestCount
  rw [run_errorCount, run_requestCount]
  omega

/-- Witness for C6: three requests served one after the other with statuses
200, 200 and 500. -/
theorem errorCount_le_requestCount_witness :
    (run (served [(200, 10000000), (200, 10000000), (500, 10000000)])).ErrorCount ≤
      (run (served [(200, 10000000), (200, 10000000), (500, 10000000)])).RequestCount :=
  errorCount_le_requestCount (served [(200, 10000000), (200, 10000000), (500, 10000000)])
    (by decide) (by decide)

/-- Counterexample to C6 as stated: the sequence made of the single call
`RecordResponse(500, 0)` reaches a state with `ErrorCount() = 1` and
`RequestCount() = 0`. -/
theorem errorCount_gt_requestCount_unpaired :
    (run [Call.RecordResponse 500 0]).ErrorCount = 1 ∧
    (run [Call.RecordResponse 500 0]).RequestCount = 0 ∧
    ¬ ((run [Call.RecordResponse 500 0]).ErrorCount ≤
        (run [Call.RecordResponse 500 0]).RequestCount) := by
  decide

/-! ## AverageDuration -/

/-- C8. For every accumulator state, `AverageDuration()` is 0 when
`requestCount = 0` and otherwise the smaller of `totalDuration / requestCount`
(floor division) and `2^63 - 1`; the result is never negative and never above
`2^63 - 1`, and with `requestCount = 1`, `totalDuration = 2^63` it is
`2^63 - 1`. -/
theorem AverageDuration_clamped (m : Metrics) :
    m.AverageDuration =
        (if m.requestCount = 0 then 0
         else min (((m.totalDuration / m.requestCount : Nat) : Int)) 9223372036854775807) ∧
    0 ≤ m.AverageDuration ∧ m.AverageDuration ≤ 9223372036854775807 ∧
    overflowState.requestCount = 1 ∧ overflowState.totalDuration = 9223372036854775808 ∧
    overflowState.AverageDuration = 9223372036854775807 := by
  have key : m.AverageDuration =
      (if m.requestCount = 0 then 0
       else min (((m.totalDuration / m.requestCount : Nat) : Int)) 9223372036854775807) := by
    unfold Metrics.AverageDuration
    by_cases h : m.requestCount = 0
    · simp [h]
    · simp only [h, if_false]
      generalize m.totalDuration / m.requestCount = q
      by_cases hgt : q > 9223372036854775807
      · simp only [hgt, if_true]
        rw [min_eq_right (by omega)]
      · simp only [hgt, if_false]
        rw [min_eq_left (by omega)]
        unfold int64OfUint64 wrapInt64
        omega
  refine ⟨key, ?_, ?_, by decide, by decide, by decide⟩
  · rw [key]
    generalize m.totalDuration / m.requestCount = q
    split
    · exact le_refl _
    · exact le_min (by omega) (by omega)
  · rw [key]
    generalize m.totalDuration / m.requestCount = q
    split
    · omega
    · exact min_le_right _ _

/-! ## Average over requests served one after the other -/

theorem sum_durations_nonneg (ds : List (Int × Int)) (hd : ∀ p ∈ ds, 0 ≤ p.2) :
    0 ≤ (ds.map Prod.snd).sum := by
  induction ds with
  | nil => simp
  | cons p rest ih =>
    have h1 := hd p (List.mem_cons_self _ _)
    have h2 := ih (fun q hq => hd q (List.mem_cons_of_mem _ hq))
    simp only [List.map_cons, List.sum_cons]
    omega

/-- Nanoseconds added by requests served one after the other: the plain sum of
the durations, when none is negative and the sum fits a `uint64`. -/
theorem durationCalls_served (ds : List (Int × Int)) (hd : ∀ p ∈ ds, 0 ≤ p.2)
    (hs : (ds.map Prod.snd).sum < 18446744073709551616) :
    (durationCalls (served ds) : Int) = (ds.map Prod.snd).sum := by
  induction ds with
  | nil => simp [served, durationCalls]
  | cons p rest ih =>
    obtain ⟨c, d⟩ := p
    have h1 : 0 ≤ d := hd (c, d) (List.mem_cons_self _ _)
    have hrest : ∀ q ∈ rest, 0 ≤ q.2 := fun q hq => hd q (List.mem_cons_of_mem _ hq)
    have h2 := sum_durations_nonneg rest hrest
    simp only [List.map_cons, List.sum_cons] at hs
    have h3 := ih hrest (by omega)
    have h4 := uint64OfInt64_of_nonneg h1 (by omega)
    simp only [served, durationCalls, List.map_cons, List.sum_cons]
    push_cast
    omega

theorem run_served_totalDuration (ds : List (Int × Int)) :
    (run (served ds)).totalDuration = durationCalls (served ds) % 18446744073709551616 :=
  run_totalDuration (served ds)

/-- Average after requests served one after the other, in terms of the two
counters' contents. -/
theorem AverageDuration_of_counters (m : Metrics) (n t : Nat) (hq : m.requestCount = n)
    (ht : m.totalDuration = t) (hn : 1 ≤ n) (hlt : t < 9223372036854775808) :
    m.AverageDuration = ((t / n : Nat) : Int) := by
  unfold Metrics.AverageDuration
  rw [hq, ht]
  have hle : t / n ≤ t := Nat.div_le_self t n
  have h0 : ¬ n = 0 := by omega
  have h1 : ¬ t / n > 9223372036854775807 := by omega
  simp only [h0, h1, if_false]
  unfold int64OfUint64 wrapInt64
  generalize t / n = q at *
  omega

/-- Requests served one after the other, the first lasting 1 ns and `n` more
lasting no measurable time, when `n` is a positive multiple of `2^64`: the
hypotheses of the average hold, `AverageDuration()` is 1 ns and the floor of the
mean is 0. -/
theorem average_of_wrapped_requestCount (n : Nat) (hn : n % 18446744073709551616 = 0)
    (hpos : 0 < n) :
    1 ≤ ((200, 1) :: List.replicate n ((200 : Int), (0 : Int))).length ∧
    (∀ p ∈ (200, 1) :: List.replicate n ((200 : Int), (0 : Int)), 0 ≤ p.2) ∧
    (((200, 1) :: List.replicate n ((200 : Int), (0 : Int))).map Prod.snd).sum
      < 9223372036854775808 ∧
    (run (served ((200, 1) :: List.replicate n ((200 : Int), (0 : Int))))).AverageDuration
      = 1 ∧
    ¬ ((run (served ((200, 1) ::
          List.replicate n ((200 : Int), (0 : Int))))).AverageDuration =
        ⌊(((((200, 1) :: List.replicate n ((200 : Int), (0 : Int))).map Prod.snd).sum : Int) : ℚ)
          / ((((200, 1) :: List.replicate n ((200 : Int), (0 : Int))).length : Nat) : ℚ)⌋) := by
  have hlen : ((200, 1) :: List.replicate n ((200 : Int), (0 : Int))).length = n + 1 := by
    rw [List.length_cons, List.length_replicate]
  have hmem : ∀ p ∈ (200, 1) :: List.replicate n ((200 : Int), (0 : Int)), 0 ≤ p.2 := by
    intro p hp
    rcases List.mem_cons.mp hp with h | h
    · rw [h]; decide
    · rw [List.eq_of_mem_replicate h]
  have hsum : (((200, 1) :: List.replicate n ((200 : Int), (0 : Int))).map Prod.snd).sum
      = 1 := by
    rw [List.map_cons, List.map_replicate, List.sum_cons, List.sum_replicate]
    simp
  have hq : (run (served ((200, 1) ::
      List.replicate n ((200 : Int), (0 : Int))))).requestCount = 1 := by
    have := run_served_requestCount ((200, 1) :: List.replicate n ((200 : Int), (0 : Int)))
    unfold Metrics.RequestCount at this
    rw [this, hlen]
    omega
  have ht : (run (served ((200, 1) ::
      List.replicate n ((200 : Int), (0 : Int))))).totalDuration = 1 := by
    have hdc := durationCalls_served _ hmem (by rw [hsum]; decide)
    rw [hsum] at hdc
    rw [run_served_totalDuration]
    omega
  have havg := AverageDuration_of_counters _ 1 1 hq ht (le_refl 1) (by decide)
  refine ⟨by rw [hlen]; omega, hmem, by rw [hsum]; decide, havg, ?_⟩
  rw [havg, hsum, hlen, Rat.floor_intCast_div_natCast,
    Int.ediv_eq_zero_of_lt (by decide) (by push_cast; omega)]
  decide

/-- C9 (as amended). For every `n` with `1 <= n < 2^64` and every list of `n`
non-negative durations whose nanosecond sum is below `2^63`, after a
`RecordRequest()` followed by `RecordResponse(c_i, d_i)` for each of them on a
fresh accumulator, `AverageDuration()` is the floor of the sum divided by `n`;
for 100 ms and 200 ms it is 150 ms. -/
theorem AverageDuration_served (ds : List (Int × Int)) (hn : 1 ≤ ds.length)
    (hlen : ds.length < 18446744073709551616) (hd : ∀ p ∈ ds, 0 ≤ p.2)
    (hs : (ds.map Prod.snd).sum < 9223372036854775808) :
    (run (served ds)).AverageDuration =
        ⌊(((ds.map Prod.snd).sum : Int) : ℚ) / ((ds.length : Nat) : ℚ)⌋ ∧
    (run (served [(200, 100000000), (200, 200000000)])).AverageDuration = 150000000 := by
  refine ⟨?_, by decide⟩
  have hq : (run (served ds)).requestCount = ds.length := by
    have := run_served_requestCount ds
    unfold Metrics.RequestCount at this
    rw [this, Nat.mod_eq_of_lt hlen]
  have hsum := durationCalls_served ds hd (by omega)
  have ht : (run (served ds)).totalDuration = durationCalls (served ds) := by
    rw [run_served_totalDuration]
    omega
  rw [AverageDuration_of_counters _ _ _ hq ht hn (by omega),
    Rat.floor_intCast_div_natCast, ← hsum, Int.ofNat_ediv]

/-- Witness for C9: the two requests of `TestAverageDuration`, 100 ms and 200 ms. -/
theorem AverageDuration_served_witness :
    (run (served [(200, 100000000), (200, 200000000)])).AverageDuration =
        ⌊((([(200, 100000000), (200, 200000000)] : List (Int × Int)).map Prod.snd).sum : ℚ)
          / (([(200, 100000000), (200, 200000000)] : List (Int × Int)).length : ℚ)⌋ ∧
    (run (served [(200, 100000000), (200, 200000000)])).AverageDuration = 150000000 :=
  AverageDuration_served [(200, 100000000), (200, 200000000)] (by decide) (by decide)
    (by decide) (by decide)

/-- Counterexample to C9 as stated: `2^64 + 1` requests served one after the
other, the first lasting 1 ns and the others no measurable time. The durations
are non-negative and sum to 1 ns, `requestCount` has wrapped to 1, so
`AverageDuration()` is 1 ns while the floor of `1 / (2^64 + 1)` is 0. -/
theorem average_ne_floor_after_wrap :
    1 ≤ ((200, 1) :: List.replicate 18446744073709551616 ((200 : Int), (0 : Int))).length ∧
    (∀ p ∈ (200, 1) :: List.replicate 18446744073709551616 ((200 : Int), (0 : Int)),
      0 ≤ p.2) ∧
    (((200, 1) :: List.replicate 18446744073709551616 ((200 : Int), (0 : Int))).map
      Prod.snd).sum < 9223372036854775808 ∧
    (run (served ((200, 1) ::
      List.replicate 18446744073709551616 ((200 : Int), (0 : Int))))).AverageDuration = 1 ∧
    ¬ ((run (served ((200, 1) ::
          List.replicate 18446744073709551616 ((200 : Int), (0 : Int))))).AverageDuration =
        ⌊(((((200, 1) :: List.replicate 18446744073709551616
              ((200 : Int), (0 : Int))).map Prod.snd).sum : Int) : ℚ)
          / ((((200, 1) :: List.replicate 18446744073709551616
              ((200 : Int), (0 : Int))).length : Nat) : ℚ)⌋) :=
  average_of_wrapped_requestCount 18446744073709551616 (by decide) (by decide)

end metrics

namespace middleware

/-! ## The instrumentation middleware -/

/-- C7 (failing input). When the wrapped chain panics, the handler built by
`Metrics(m)` has called `RecordRequest` and never calls `RecordResponse`: the
panic is handed on, the accumulator is left as `RecordRequest` left it, and on
a fresh accumulator `ActiveRequests()` is 1 after the request, not 0 as before
it, with no status code counted. -/
theorem Metrics_panic_skips_RecordResponse :
    (∀ (m : metrics.Metrics) (duration : Int),
        Metrics m panicking duration = (m.RecordRequest, some "test panic")) ∧
    metrics.New.ActiveRequests = 0 ∧
    (Metrics metrics.New panicking 1000).1.ActiveRequests = 1 ∧
    (Metrics metrics.New panicking 1000).1.RequestCount = 1 ∧
    (Metrics metrics.New panicking 1000).1.StatusCodes = [] ∧
    (Metrics metrics.New panicking 1000).2 = some "test panic" := by
  refine ⟨fun m duration => rfl, by decide, by decide, by decide, by decide, rfl⟩

/-- The adapter keeps the status code it was created with while the handler
only writes body data. -/
theorem foldl_write_statusCode (calls : List WriterCall) (rw : responseWriter)
    (h : ∀ c ∈ calls, c = WriterCall.Write) :
    (calls.foldl WriterCall.apply rw).statusCode = rw.statusCode := by
  induction calls generalizing rw with
  | nil => rfl
  | cons c rest ih =>
    have hc : c = WriterCall.Write := h c (List.mem_cons_self _ _)
    subst hc
    rw [List.foldl_cons, ih _ (fun c hc => h c (List.mem_cons_of_mem _ hc))]
    show rw.Write.statusCode = rw.statusCode
    unfold responseWriter.Write
    split <;> rfl

theorem Metrics_of_return (m : metrics.Metrics) (next : responseWriter → Except String responseWriter)
    (duration : Int) (w : responseWriter)
    (h : next { statusCode := StatusOK, written := false } = Except.ok w) :
    Metrics m next duration = (m.RecordRequest.RecordResponse w.statusCode duration, none) := by
  unfold Metrics
  simp only [h]

theorem requestsAtMax_inRange : metrics.requestsAtMax.InRange := by
  refine ⟨by decide, by decide, by decide, by decide, by decide, ?_⟩
  intro k
  by_cases h1 : (200 : Int) = k <;> simp [metrics.requestsAtMax, metrics.mapGet, h1]

/-- C12 (as amended). For every accumulator state whose fields lie in their Go
types and every wrapped handler that returns normally, serving one request
through `Metrics(m)` is one `RecordRequest()` followed by one
`RecordResponse` with the code the adapter holds when the handler returns:
`RequestCount()` grows by exactly 1 unless it was `2^64 - 1` (then it wraps to
0), `ActiveRequests()` ends equal to its value before the request, the count of
that code grows by exactly 1 unless it was `2^64 - 1` (then it wraps to 0),
every other count is kept, and the code is 200 when the handler only writes
body data and never sets a status code. -/
theorem Metrics_serves_one_request (m : metrics.Metrics)
    (next : responseWriter → Except String responseWriter) (duration : Int)
    (w : responseWriter) (hm : m.InRange)
    (h : next { statusCode := StatusOK, written := false } = Except.ok w) :
    Metrics m next duration = (m.RecordRequest.RecordResponse w.statusCode duration, none) ∧
    (Metrics m next duration).1.RequestCount =
        (if m.RequestCount = 18446744073709551615 then 0 else m.RequestCount + 1) ∧
    (Metrics m next duration).1.ActiveRequests = m.ActiveRequests ∧
    metrics.mapGet (Metrics m next duration).1.StatusCodes w.statusCode =
        (if metrics.mapGet m.StatusCodes w.statusCode = 18446744073709551615 then 0
         else metrics.mapGet m.StatusCodes w.statusCode + 1) ∧
    (∀ k : Int, k ≠ w.statusCode →
        metrics.mapGet (Metrics m next duration).1.StatusCodes k =
          metrics.mapGet m.StatusCodes k) ∧
    (∀ calls : List WriterCall, (∀ c ∈ calls, c = WriterCall.Write) →
        Metrics m (handler calls) duration =
          (m.RecordRequest.RecordResponse 200 duration, none)) := by
  obtain ⟨hr, _, _, ha0, ha1, hs⟩ := hm
  have hreq : m.RecordRequest.requestCount = metrics.wrapUint64 (m.requestCount + 1) := rfl
  have hact : m.RecordRequest.activeRequests = metrics.wrapInt64 (m.activeRequests + 1) := rfl
  have hsc : m.RecordRequest.statusCodes = m.statusCodes := rfl
  rw [Metrics_of_return m next duration w h]
  refine ⟨rfl, ?_, ?_, ?_, ?_, ?_⟩
  · show (m.RecordRequest.RecordResponse w.statusCode duration).requestCount = _
    rw [metrics.RecordResponse_requestCount, hreq]
    unfold metrics.Metrics.RequestCount metrics.wrapUint64
    split <;> omega
  · show (m.RecordRequest.RecordResponse w.statusCode duration).activeRequests =
      m.activeRequests
    rw [metrics.RecordResponse_activeRequests, hact]
    unfold metrics.wrapInt64
    omega
  · show metrics.mapGet (m.RecordRequest.RecordResponse w.statusCode duration).statusCodes
      w.statusCode = _
    rw [metrics.RecordResponse_statusCodes, metrics.mapGet_mapSet_self, hsc]
    have := hs w.statusCode
    unfold metrics.Metrics.StatusCodes metrics.wrapUint64
    split <;> omega
  · intro k hk
    show metrics.mapGet (m.RecordRequest.RecordResponse w.statusCode duration).statusCodes k =
      metrics.mapGet m.statusCodes k
    rw [metrics.RecordResponse_statusCodes, metrics.mapGet_mapSet_other _ _ _ _ hk, hsc]
  · intro calls hc
    have hw := foldl_write_statusCode calls { statusCode := StatusOK, written := false } hc
    have e := Metrics_of_return m (handler calls) duration
      (calls.foldl WriterCall.apply { statusCode := StatusOK, written := false }) rfl
    rw [e, hw]
    rfl

/-- Witness for C12: the request of `TestMetrics` on a fresh accumulator; the
handler calls `WriteHeader(200)` and then writes a body. -/
theorem Metrics_serves_one_request_witness :
    Metrics metrics.New (handler [WriterCall.WriteHeader 200, WriterCall.Write]) 1000 =
      (metrics.New.RecordRequest.RecordResponse 200 1000, none) ∧
    (Metrics metrics.New (handler [WriterCall.WriteHeader 200, WriterCall.Write])
        1000).1.RequestCount = 1 ∧
    (Metrics metrics.New (handler [WriterCall.WriteHeader 200, WriterCall.Write])
        1000).1.ActiveRequests = 0 ∧
    metrics.mapGet (Metrics metrics.New
        (handler [WriterCall.WriteHeader 200, WriterCall.Write]) 1000).1.StatusCodes 200 = 1 :=
  have h := Metrics_serves_one_request metrics.New
    (handler [WriterCall.WriteHeader 200, WriterCall.Write]) 1000
    { statusCode := 200, written := true } metrics.New_inRange rfl
  ⟨h.1, h.2.1, h.2.2.1, h.2.2.2.1⟩

/-- Counterexample to C12 as stated: in the in-range state whose `requestCount`
and `statusCodes[200]` are `2^64 - 1`, a request whose handler only writes a
body and returns normally leaves `RequestCount() = 0` and
`StatusCodes()[200] = 0`, neither of them 1 more. -/
theorem Metrics_counts_wrap_at_max :
    metrics.requestsAtMax.InRange ∧
    (Metrics metrics.requestsAtMax (handler [WriterCall.Write]) 1000).2 = none ∧
    (Metrics metrics.requestsAtMax (handler [WriterCall.Write]) 1000).1.RequestCount = 0 ∧
    metrics.mapGet
      (Metrics metrics.requestsAtMax (handler [WriterCall.Write]) 1000).1.StatusCodes 200 = 0 ∧
    ¬ ((Metrics metrics.requestsAtMax (handler [WriterCall.Write]) 1000).1.RequestCount =
        metrics.requestsAtMax.RequestCount + 1) := by
  refine ⟨requestsAtMax_inRange, by decide, by decide, by decide, by decide⟩

end middleware

namespace metrics

/-! ## Monotonic counters -/

theorem longRequests_inRange : longRequests.InRange := by
  refine ⟨by decide, by decide, by decide, by decide, by decide, ?_⟩
  intro k
  have h : longRequests.statusCodes = [(200, 3)] := by decide
  rw [h]
  by_cases hk : (200 : Int) = k <;> simp [mapGet, hk]

/-- C13 (as amended). For every accumulator state whose fields lie in their Go
types, `RecordRequest()` keeps `ErrorCount()` and `totalDuration` and does not
make `RequestCount()` smaller unless it was `2^64 - 1`; `RecordResponse(c, d)`
with a non-negative duration `d` keeps `RequestCount()`, does not make
`ErrorCount()` smaller unless `c >= 500` and it was `2^64 - 1`, and does not
make `totalDuration` smaller unless `totalDuration + d` reaches `2^64`. -/
theorem counters_monotonic_until_wrap (m : Metrics) (c d : Int) (hm : m.InRange)
    (h0 : 0 ≤ d) (h1 : d < 9223372036854775808) :
    (m.requestCount < 18446744073709551615 → m.RequestCount ≤ m.RecordRequest.RequestCount) ∧
    m.RecordRequest.ErrorCount = m.ErrorCount ∧
    m.RecordRequest.totalDuration = m.totalDuration ∧
    (m.RecordResponse c d).RequestCount = m.RequestCount ∧
    (c < 500 ∨ m.errorCount < 18446744073709551615 →
        m.ErrorCount ≤ (m.RecordResponse c d).ErrorCount) ∧
    ((m.totalDuration : Int) + d < 18446744073709551616 →
        m.totalDuration ≤ (m.RecordResponse c d).totalDuration) := by
  obtain ⟨hr, he, ht, _, _, _⟩ := hm
  refine ⟨?_, rfl, rfl, RecordResponse_requestCount m c d, ?_, ?_⟩
  · intro h
    show m.requestCount ≤ wrapUint64 (m.requestCount + 1)
    unfold wrapUint64
    omega
  · intro h
    unfold Metrics.ErrorCount
    by_cases hc : 500 ≤ c
    · rw [RecordResponse_errorCount_ge m c d hc]
      unfold wrapUint64
      omega
    · rw [RecordResponse_errorCount_lt m c d (not_le.mp hc)]
  · intro h
    rw [RecordResponse_totalDuration]
    have hu := uint64OfInt64_of_nonneg h0 (by omega : d < 18446744073709551616)
    unfold wrapUint64
    omega

/-- Witness for C13: a fresh accumulator with one request in flight, answered
with status 500 after 200 ms. -/
theorem counters_monotonic_until_wrap_witness :
    (New.RecordRequest.requestCount < 18446744073709551615 →
        New.RecordRequest.RequestCount ≤ New.RecordRequest.RecordRequest.RequestCount) ∧
    New.RecordRequest.RecordRequest.ErrorCount = New.RecordRequest.ErrorCount ∧
    New.RecordRequest.RecordRequest.totalDuration = New.RecordRequest.totalDuration ∧
    (New.RecordRequest.RecordResponse 500 200000000).RequestCount =
        New.RecordRequest.RequestCount ∧
    ((500 : Int) < 500 ∨ New.RecordRequest.errorCount < 18446744073709551615 →
        New.RecordRequest.ErrorCount ≤
          (New.RecordRequest.RecordResponse 500 200000000).ErrorCount) ∧
    ((New.RecordRequest.totalDuration : Int) + 200000000 < 18446744073709551616 →
        New.RecordRequest.totalDuration ≤
          (New.RecordRequest.RecordResponse 500 200000000).totalDuration) :=
  counters_monotonic_until_wrap New.RecordRequest 500 200000000
    (RecordRequest_inRange New New_inRange) (by decide) (by decide)

/-- Counterexample to C13 as stated: after three completed requests of
`2^63 - 1`, `2^63 - 1` and `1` nanoseconds and the start of a fourth, the state
is in range with `totalDuration = 2^64 - 1`; `RecordResponse(200, 1ns)`, a
non-negative duration, yields `totalDuration = 0`, smaller than before. -/
theorem totalDuration_smaller_after_wrap :
    longRequests.InRange ∧ (0 : Int) ≤ 1 ∧
    longRequests.totalDuration = 18446744073709551615 ∧
    (longRequests.RecordResponse 200 1).totalDuration = 0 ∧
    (longRequests.RecordResponse 200 1).totalDuration < longRequests.totalDuration :=
  ⟨longRequests_inRange, by decide, by decide, by decide, by decide⟩

/-! ## Requests in flight on correctly paired sequences -/

theorem requestCalls_replicate_request (n : Nat) :
    requestCalls (List.replicate n Call.RecordRequest) = n := by
  induction n with
  | zero => rfl
  | succ n ih => rw [List.replicate_succ]; simp only [requestCalls, ih]

theorem responseCalls_replicate_request (n : Nat) :
    responseCalls (List.replicate n Call.RecordRequest) = 0 := by
  induction n with
  | zero => rfl
  | succ n ih => rw [List.replicate_succ]; simp only [responseCalls, ih]

/-- Requests started without any response form a correctly paired sequence. -/
theorem replicate_request_paired (n k : Nat) :
    responseCalls ((List.replicate n Call.RecordRequest).take k) ≤
      requestCalls ((List.replicate n Call.RecordRequest).take k) := by
  rw [List.take_replicate, responseCalls_replicate_request]
  exact Nat.zero_le _

theorem run_replicate_request_active (n : Nat)
    (hn : n % 18446744073709551616 = 9223372036854775808) :
    (run (List.replicate n Call.RecordRequest)).ActiveRequests = -9223372036854775808 := by
  unfold Metrics.ActiveRequests
  rw [run_activeRequests, requestCalls_replicate_request, responseCalls_replicate_request]
  unfold wrapInt64
  push_cast
  omega

theorem run_replicate_request_negative (n : Nat)
    (hn : n % 18446744073709551616 = 9223372036854775808) :
    ¬ (0 ≤ (run (List.replicate n Call.RecordRequest)).ActiveRequests) := by
  rw [run_replicate_request_active n hn]
  decide

/-- C11 (as amended). For every sequence of `RecordRequest` and `RecordResponse`
calls applied to `New()` that is correctly paired (no initial part holds more
responses than requests), after every call `ActiveRequests()` is the number of
requests minus the number of responses, hence `>= 0`, as long as that number is
below `2^63`, and it is exactly 0 whenever the two numbers are equal; after
`RecordRequest()` then `RecordResponse(200, d)`, `ActiveRequests() = 0` and
`StatusCodes()[200] = 1`. -/
theorem activeRequests_paired (cs : List Call)
    (hp : ∀ k : Nat, responseCalls (cs.take k) ≤ requestCalls (cs.take k)) (k : Nat) :
    ((requestCalls (cs.take k) : Int) - responseCalls (cs.take k) < 9223372036854775808 →
        (run (cs.take k)).ActiveRequests =
            (requestCalls (cs.take k) : Int) - responseCalls (cs.take k) ∧
        0 ≤ (run (cs.take k)).ActiveRequests) ∧
    (requestCalls (cs.take k) = responseCalls (cs.take k) →
        (run (cs.take k)).ActiveRequests = 0) ∧
    (∀ d : Int,
        (run [Call.RecordRequest, Call.RecordResponse 200 d]).ActiveRequests = 0 ∧
        mapGet (run [Call.RecordRequest, Call.RecordResponse 200 d]).StatusCodes 200 = 1) := by
  have hk := hp k
  refine ⟨?_, ?_, ?_⟩
  · intro hlt
    unfold Metrics.ActiveRequests
    rw [run_activeRequests, wrapInt64_of_mem (by omega) hlt]
    exact ⟨rfl, by omega⟩
  · intro heq
    unfold Metrics.ActiveRequests
    rw [run_activeRequests, heq, sub_self]
    rfl
  · intro d
    refine ⟨?_, ?_⟩
    · unfold Metrics.ActiveRequests
      rw [run_activeRequests]
      simp only [requestCalls, responseCalls]
      unfold wrapInt64
      omega
    · show mapGet (New.RecordRequest.RecordResponse 200 d).statusCodes 200 = 1
      rw [RecordResponse_statusCodes, mapGet_mapSet_self]
      rfl

/-- Witness for C11: two requests started, then both finished; the state after
the third call. -/
theorem activeRequests_paired_witness :
    (run ([Call.RecordRequest, Call.RecordRequest, Call.RecordResponse 200 1000,
        Call.RecordResponse 404 1000].take 3)).ActiveRequests =
      (requestCalls ([Call.RecordRequest, Call.RecordRequest, Call.RecordResponse 200 1000,
        Call.RecordResponse 404 1000].take 3) : Int) -
      responseCalls ([Call.RecordRequest, Call.RecordRequest, Call.RecordResponse 200 1000,
        Call.RecordResponse 404 1000].take 3) ∧
    0 ≤ (run ([Call.RecordRequest, Call.RecordRequest, Call.RecordResponse 200 1000,
        Call.RecordResponse 404 1000].take 3)).ActiveRequests :=
  (activeRequests_paired
    [Call.RecordRequest, Call.RecordRequest, Call.RecordResponse 200 1000,
      Call.RecordResponse 404 1000]
    (fun k => by
      rcases k with _ | _ | _ | _ | _ | k <;>
        simp [List.take, requestCalls, responseCalls])
    3).1 (by decide)

/-- Counterexample to C11 as stated: `2^63` `RecordRequest()` calls with no
response form a correctly paired sequence, and after the last of them
`ActiveRequests()` is `-2^63`, which is negative. -/
theorem activeRequests_negative_after_wrap :
    (∀ k : Nat,
      responseCalls ((List.replicate 9223372036854775808 Call.RecordRequest).take k) ≤
        requestCalls ((List.replicate 9223372036854775808 Call.RecordRequest).take k)) ∧
    (run (List.replicate 9223372036854775808 Call.RecordRequest)).ActiveRequests =
      -9223372036854775808 ∧
    ¬ (0 ≤ (run (List.replicate 9223372036854775808 Call.RecordRequest)).ActiveRequests) :=
  ⟨fun k => replicate_request_paired _ k, run_replicate_request_active _ (by decide),
    run_replicate_request_negative _ (by decide)⟩

end metrics
